import Mathlib

/-!
Verification development for CoreBurner (`coreburner.c`), a CPU stress and
telemetry tool.  The definitions below are a shallow embedding of the parts of
the source relevant to the properties under study: machine `uint64_t`
arithmetic is modelled as `Nat` with explicit reduction modulo `2^64`, signed
`long`/`int` values as `Int`, `double` computations as exact rationals, and
fallible OS reads as `Option`.
-/

namespace CoreBurner

/-- `2^64`, the modulus of C `uint64_t` arithmetic. -/
def U64 : ℕ := 2 ^ 64

/-- C unsigned 64-bit subtraction `a - b` (wraparound, both operands assumed
reduced below `2^64`), as used for the tick deltas in `main_runtime`. -/
def sub64 (a b : ℕ) : ℕ := (a + U64 - b) % U64

/-- Per-core utilization computation from `main_runtime`
(`coreburner.c:2017-2027`): `totald = total_curr - total_prev` and
`idled = idle_curr - idle_prev` in `uint64_t` arithmetic, then
`usage = 100.0 * (double)(totald - idled) / (double)totald` when
`totald > 0`, else `0`.  The `double` arithmetic is modelled exactly in `ℚ`;
the inner `totald - idled` is again `uint64_t` subtraction. -/
def computeUsage (totalPrev idlePrev totalCurr idleCurr : ℕ) : ℚ :=
  let totald := sub64 totalCurr totalPrev
  let idled := sub64 idleCurr idlePrev
  if totald > 0 then 100 * ((sub64 totald idled : ℕ) : ℚ) / (totald : ℚ) else 0

/-- Per-thread operations delta from `main_runtime` (`coreburner.c:2076-2082`):
`delta = (ops >= prev) ? ops - prev : UINT64_MAX - prev + ops + 1`, every
operation in `uint64_t` arithmetic (operands assumed reduced below `2^64`). -/
def opsDelta (ops prev : ℕ) : ℕ :=
  if prev ≤ ops then (ops - prev) % U64
  else (((U64 - 1 - prev + ops) % U64) + 1) % U64

/-- `read_temperature` (`coreburner.c:838-857`), abstracted over the raw
integer obtained from the sensor file: `none` as input stands for an absent
or unreadable path (the `fopen`/`fscanf` failures).  The raw value is scaled
by `1/1000` when strictly greater than `1000`, taken as-is otherwise, and the
result is rejected when outside `[-20, 150]` (`TEMP_SANITY_MIN/MAX`). -/
def readTemperature (raw : Option ℤ) : Option ℚ :=
  match raw with
  | none => none
  | some v =>
    let t : ℚ := if v > 1000 then (v : ℚ) / 1000 else (v : ℚ)
    if t < -20 ∨ t > 150 then none else some t

/-! ### Workload kinds, type parsing and SIMD auto-detection -/

/-- The `workload_t` enumeration (`coreburner.c:927-936`). -/
inductive Workload
  | wInt | wFloat | wSse | wAvx | wAvx2 | wAvx512 | wMixed | wAuto
deriving DecidableEq, Repr

open Workload

/-- `str_case_equal` (`coreburner.c:1293-1295`): `strcasecmp`-style
case-insensitive string equality, on ASCII character lists. -/
def strCaseEqual (a b : List Char) : Bool :=
  a.map Char.toUpper == b.map Char.toUpper

/-- `parse_type` (`coreburner.c:1297-1309`): case-insensitive comparison
against the eight keywords; a null argument or any unrecognized string
yields `W_AUTO`. -/
def parseType (s : Option (List Char)) : Workload :=
  match s with
  | none => wAuto
  | some s =>
    if strCaseEqual s ['I', 'N', 'T'] then wInt
    else if strCaseEqual s ['F', 'L', 'O', 'A', 'T'] then wFloat
    else if strCaseEqual s ['S', 'S', 'E'] then wSse
    else if strCaseEqual s ['A', 'V', 'X'] then wAvx
    else if strCaseEqual s ['A', 'V', 'X', '2'] then wAvx2
    else if strCaseEqual s ['A', 'V', 'X', '5', '1', '2'] then wAvx512
    else if strCaseEqual s ['M', 'I', 'X', 'E', 'D'] then wMixed
    else if strCaseEqual s ['A', 'U', 'T', 'O'] then wAuto
    else wAuto

/-- The eight recognized `--type` keywords. -/
def TYPE_KEYWORDS : List (List Char) :=
  [['I', 'N', 'T'], ['F', 'L', 'O', 'A', 'T'], ['S', 'S', 'E'], ['A', 'V', 'X'],
   ['A', 'V', 'X', '2'], ['A', 'V', 'X', '5', '1', '2'], ['M', 'I', 'X', 'E', 'D'],
   ['A', 'U', 'T', 'O']]

/-- Outcome of the four `cpu_supports_*` capability queries
(`coreburner.c:1046-1133`), abstracted as oracle booleans. -/
structure Caps where
  sse : Bool
  avx : Bool
  avx2 : Bool
  avx512 : Bool
deriving DecidableEq, Repr

/-- `auto_detect_best_simd` (`coreburner.c:1587-1606`): best of AVX-512,
AVX2, AVX, SSE in that order, else INT. -/
def autoDetectBestSimd (c : Caps) : Workload :=
  if c.avx512 then wAvx512
  else if c.avx2 then wAvx2
  else if c.avx then wAvx
  else if c.sse then wSse
  else wInt

/-- The SIMD preference order used by `auto_detect_best_simd`, best first,
with the capability flag guarding each tier (spec side: "best of AVX512,
AVX2, AVX, SSE, else INT"). -/
def simdPreference (c : Caps) : List (Bool × Workload) :=
  [(c.avx512, wAvx512), (c.avx2, wAvx2), (c.avx, wAvx), (c.sse, wSse)]

/-! ### Mixed-ratio parsing and the worker's per-iteration pick -/

/-- The `mixed_ratio_t` structure (`coreburner.c:1551-1556`); C `int` fields. -/
structure MixedRatio where
  rInt : ℤ
  rFloat : ℤ
  rAvx : ℤ
  total : ℤ
deriving DecidableEq, Repr

/-- `parse_mixed_ratio` (`coreburner.c:1560-1582`), abstracted over the
`sscanf("%d:%d:%d")` result: `none` stands for a scan that matched fewer than
three integers.  Negative components or a non-positive total are rejected. -/
def parseMixedRatio (scanned : Option (ℤ × ℤ × ℤ)) : Option MixedRatio :=
  match scanned with
  | none => none
  | some (a, b, c) =>
    if a < 0 ∨ b < 0 ∨ c < 0 then none
    else if a + b + c ≤ 0 then none
    else some ⟨a, b, c, a + b + c⟩

/-- The three work-unit families a MIXED iteration can execute. -/
inductive WUnit
  | intU | floatU | vecU
deriving DecidableEq, Repr

/-- The MIXED branch of `worker_thread` (`coreburner.c:1825-1843`): when the
global ratio total is positive, draw `pick = rand_r % total` and run exactly
one unit by cumulative comparison; when the total is zero (ratio unset), fall
back to running all three units in sequence (equal 1:1:1 weighting). `rnd`
is the nonnegative `rand_r` draw. -/
def mixedPick (mr : MixedRatio) (rnd : ℕ) : List WUnit :=
  if mr.total > 0 then
    let pick : ℤ := (rnd : ℤ) % mr.total
    if pick < mr.rInt then [WUnit.intU]
    else if pick < mr.rInt + mr.rFloat then [WUnit.floatU]
    else [WUnit.vecU]
  else [WUnit.intU, WUnit.floatU, WUnit.vecU]

/-! ### Environment validation -/

/-- The three run modes accepted by `validate_environment`
(`str_case_equal(mode, "single")`, `"single-core-multi"`, anything else is
multi). -/
inductive MMode
  | single | singleCoreMulti | multi
deriving DecidableEq, Repr

/-- Environment facts `validate_environment` observes: readability of
`/proc/stat`, the affinity CPU count (`get_affinity_cpu_count`, always at
least 1), CPU capabilities and effective-uid root. -/
structure Env where
  procStatReadable : Bool
  affinity : ℕ
  caps : Caps
  isRoot : Bool
deriving DecidableEq, Repr

/-- Configuration passed to `validate_environment`. `mixedRatioScan` is
`none` when no `--mixed-ratio` string was supplied, `some none` when the
string fails the `sscanf`, and `some (some (a,b,c))` for a scanned triple. -/
structure EnvConfig where
  mode : MMode
  wtype : Workload
  maxThreads : ℤ
  wantsCpufreqWrite : Bool
  mixedRatioScan : Option (Option (ℤ × ℤ × ℤ))
  singleCoreId : ℤ
  singleCoreThreads : ℤ
deriving DecidableEq, Repr

/-- The distinct fatal outcomes of `validate_environment`. -/
inductive VErr
  | procStat | badCoreId | badCoreThreads
  | noSse | noAvx | noAvx2 | noAvx512 | noAvxMixed
  | needRoot | mixedNoRatio | mixedBadRatio
deriving DecidableEq, Repr

/-- Successful outcome of `validate_environment`: the worker thread count
written to `*out_nthreads` and the `g_mixed_ratio` committed for MIXED runs.
In the `W_AUTO` early-return path the C function returns success without
writing `*out_nthreads`; the caller's variable stays `0`, modelled by
returning `0`. -/
structure VOk where
  nthreads : ℤ
  ratio : Option MixedRatio
deriving DecidableEq, Repr

/-- Thread-count derivation of `validate_environment`
(`coreburner.c:1632-1652`): one thread for `single`, the validated
`--single-core-threads` count for `single-core-multi`, the affinity CPU
count otherwise. -/
def modeThreads (env : Env) (cfg : EnvConfig) : Except VErr ℤ :=
  match cfg.mode with
  | .single => .ok 1
  | .singleCoreMulti =>
    if cfg.singleCoreId < 0 ∨ cfg.singleCoreId ≥ (env.affinity : ℤ) then .error .badCoreId
    else if cfg.singleCoreThreads ≤ 0 ∨ cfg.singleCoreThreads > cfg.maxThreads then
      .error .badCoreThreads
    else .ok cfg.singleCoreThreads
  | .multi => .ok (env.affinity : ℤ)

/-- The two clamp steps of `validate_environment` (`coreburner.c:1654-1664`,
comment "NEW BEHAVIOR: Clamp instead of error"): clamp to `--max-threads`,
then to `DEFAULT_MAX_THREADS = 256`. -/
def clampThreads (n0 maxT : ℤ) : ℤ :=
  let n1 := if n0 > maxT then maxT else n0
  if n1 > 256 then 256 else n1

/-- `validate_environment` (`coreburner.c:1611-1741`) as a pure function:
thread-count derivation and clamping, `W_AUTO` early return, capability
checks, root check for cpufreq writes, and the MIXED ratio requirement, in
source order. -/
def validateEnvironment (env : Env) (cfg : EnvConfig) : Except VErr VOk :=
  if ¬env.procStatReadable then .error .procStat else
  match modeThreads env cfg with
  | .error e => .error e
  | .ok n0 =>
    let n := clampThreads n0 cfg.maxThreads
    if cfg.wtype = wAuto then .ok ⟨0, none⟩ else
    if cfg.wtype = wSse ∧ ¬env.caps.sse then .error .noSse else
    if cfg.wtype = wAvx ∧ ¬env.caps.avx then .error .noAvx else
    if cfg.wtype = wAvx2 ∧ ¬env.caps.avx2 then .error .noAvx2 else
    if cfg.wtype = wAvx512 ∧ ¬env.caps.avx512 then .error .noAvx512 else
    if cfg.wtype = wMixed ∧ ¬env.caps.avx then .error .noAvxMixed else
    if cfg.wantsCpufreqWrite ∧ ¬env.isRoot then .error .needRoot else
    if cfg.wtype = wMixed then
      match cfg.mixedRatioScan with
      | none => .error .mixedNoRatio
      | some scanned =>
        match parseMixedRatio scanned with
        | none => .error .mixedBadRatio
        | some mr => .ok ⟨n, some mr⟩
    else .ok ⟨n, none⟩

/-- The mode-derived worker count before clamping (`coreburner.c:1632-1652`). -/
def derivedThreads (env : Env) (cfg : EnvConfig) : ℤ :=
  match cfg.mode with
  | .single => 1
  | .singleCoreMulti => cfg.singleCoreThreads
  | .multi => (env.affinity : ℤ)

/-! ### Dynamic frequency tuner -/

/-- `DYN_FREQ_STEP_PCT` (`coreburner.c:708`). -/
def DYN_FREQ_STEP_PCT : ℤ := 10

/-- The kHz floor hard-coded in the tuner (`coreburner.c:2094`). -/
def FREQ_FLOOR : ℤ := 100000

/-- One core's resolved "current or last known max"
(`coreburner.c:2091-2092`): the stored `current_max_freq[c]` when positive,
otherwise the fallback `read_scaling_cur_freq` value when that read
succeeds, otherwise the stored value unchanged. -/
def resolveCur (stored : ℤ) (fallback : Option ℤ) : ℤ :=
  if stored ≤ 0 then
    match fallback with
    | some r => r
    | none => stored
  else stored

/-- `new_max = (long)(cur * (100 - DYN_FREQ_STEP_PCT) / 100.0)` followed by
the floor clamp (`coreburner.c:2093-2094`).  The C double division plus
long-cast truncates toward zero, which is `Int.tdiv`; the multiplication is
exact `long` arithmetic. -/
def dynNewMax (cur : ℤ) : ℤ :=
  let nm := Int.tdiv (cur * (100 - DYN_FREQ_STEP_PCT)) 100
  if nm < FREQ_FLOOR then FREQ_FLOOR else nm

/-- One core's observable tuner step (`coreburner.c:2090-2099`): `issued` is
the maximum written through `write_scaling_min_max`, `stored'` the value of
`current_max_freq[c]` afterwards (updated only when the write succeeded). -/
structure CoreDyn where
  issued : ℤ
  stored' : ℤ
deriving DecidableEq, Repr

/-- Per-core body of the tuner loop: `stored` is `current_max_freq[c]`,
`fallback` the optional `read_scaling_cur_freq` result, `writeOk` whether
`write_scaling_min_max(c, -1, new_max)` returned 0. -/
def dynCoreStep (stored : ℤ) (fallback : Option ℤ) (writeOk : Bool) : CoreDyn :=
  let cur := resolveCur stored fallback
  let nm := dynNewMax cur
  ⟨nm, if writeOk then nm else stored⟩

/-- One control-interval evaluation of the dynamic frequency tuner
(`coreburner.c:2087-2101`): guarded by the temperature reading being present
(`!isnan(tempC)`) and `tempC >= temp_threshold`.  Each list element carries
one core's `(stored max, fallback read, write success)`.  Returns the new
stored maxima together with the list of issued writes (empty when no step is
taken). -/
def dynTunerStep (temp : Option ℚ) (thresh : ℚ)
    (cores : List (ℤ × Option ℤ × Bool)) : List ℤ × List ℤ :=
  match temp with
  | none => (cores.map (·.1), [])
  | some t =>
    if t ≥ thresh then
      ((cores.map fun c => (dynCoreStep c.1 c.2.1 c.2.2).stored'),
       cores.map fun c => (dynCoreStep c.1 c.2.1 c.2.2).issued)
    else (cores.map (·.1), [])

/-! ### Affinity monitor reassignment -/

/-- The reassignment pass of `monitor_thread` (`coreburner.c:1183-1210`),
run after the available-CPU count changed to `m`: worker `i` keeps its
`cpu_id` when it is below `m` and is moved to `i % m` otherwise.  Ids are C
`int`s; `%` on a nonnegative dividend and positive divisor agrees with
`Int.emod`. -/
def reassignFrom (m : ℤ) : ℕ → List ℤ → List ℤ
  | _, [] => []
  | i, id :: rest => (if id ≥ m then (i : ℤ) % m else id) :: reassignFrom m (i + 1) rest

/-- The full pass over `g_workers.wargs[0 .. nthreads-1]`. -/
def reassignWorkers (m : ℤ) (ids : List ℤ) : List ℤ := reassignFrom m 0 ids

/-! ### Frequency-table parsing -/

/-- `strtok(copy, ",")` splitting: comma-separated tokens with empty tokens
skipped (consecutive separators collapse), on the character list of the
input string. -/
def splitToks : List Char → List Char → List (List Char)
  | [], acc => if acc.isEmpty then [] else [acc.reverse]
  | c :: r, acc =>
    if c = ',' then
      if acc.isEmpty then splitToks r [] else acc.reverse :: splitToks r []
    else splitToks r (c :: acc)

/-- `strchr(tok, ':')`: split a token at its first colon, `none` when the
token has no colon. -/
def colonSplit : List Char → Option (List Char × List Char)
  | [] => none
  | c :: r =>
    if c = ':' then some ([], r)
    else match colonSplit r with
      | none => none
      | some (a, b) => some (c :: a, b)

/-- The write trace of `parse_freq_table` (`coreburner.c:1493-1546`): one
entry per token containing a `':'`, in input order; entry `i` of this list is
written to `cpus[i]` and `freq[i]`.  Tokens without a separator are skipped
(`if (!sep) continue`) and advance nothing.  The buffers are allocated with
`maxpairs = 256` entries; in this version of the loop no bound on `cnt`
guards the stores. -/
def parseFreqTableWrites (s : List Char) : List (List Char × List Char) :=
  (splitToks s []).filterMap colonSplit

/-- `maxpairs` (`coreburner.c:1509`): capacity of the `cpus`/`freq` buffers. -/
def MAXPAIRS : ℕ := 256

/-! ### DCL validation (spec-modelled) -/

/-- Validation verdict of the DCL frequency validator. -/
inductive Verdict
  | pass | fail
deriving DecidableEq, Repr

/-- Modelled from the spec: the DCL validator's `validate(spec, measured)`
operation is absent from `src/` (only its report format in the DCL
documentation and its shell-script callers are present).  Per the spec:
`deviation_pct = |measured - expected| / expected * 100` and
`verdict = Pass if deviation_pct <= tolerance_pct else Fail`. -/
structure DCLSpecEntry where
  expected : ℚ
  tolerancePct : ℚ
deriving DecidableEq, Repr

/-- Modelled from the spec: a `ValidationRecord`'s deviation and verdict
fields (the other fields are copies of the inputs). -/
structure ValidationRecord where
  deviationPct : ℚ
  verdict : Verdict
deriving DecidableEq, Repr

/-- Modelled from the spec: `validate(spec, measured_freq)`.  See
`DCLSpecEntry` for the source situation. -/
def validate (spec : DCLSpecEntry) (measured : ℚ) : ValidationRecord :=
  let dev := |measured - spec.expected| / spec.expected * 100
  ⟨dev, if dev ≤ spec.tolerancePct then .pass else .fail⟩

/-! ## Theorems -/

/-- `uint64_t` subtraction without wraparound: when `b ≤ a < 2^64` the C
expression `a - b` is the mathematical difference. -/
lemma sub64_of_le {a b : ℕ} (hba : b ≤ a) (ha : a < U64) : sub64 a b = a - b := by
  simp only [sub64, U64] at *
  omega

/-- `uint64_t` subtraction of equal operands is zero. -/
lemma sub64_self (a : ℕ) : sub64 a a = 0 := by
  simp [sub64, U64]

/-- C1 counterexample.  At the concrete sample
`(total_prev, idle_prev) = (0, 0)`, `(total_curr, idle_curr) = (1, 2)` — an
idle delta exceeding the total delta — the computed utilization is
`100 · (2^64 − 1)`, far above 100; and at
`(total_prev, idle_prev) = (100, 0)`, `(total_curr, idle_curr) = (50, 0)` —
a total that went backwards — the wrapped delta is not clamped to zero and
the utilization is 100, not 0. -/
theorem computeUsage_escapes_range :
    100 < computeUsage 0 0 1 2 ∧ computeUsage 100 0 50 0 ≠ 0 := by
  constructor
  · show (100 : ℚ) < computeUsage 0 0 1 2
    norm_num [computeUsage, sub64, U64]
  · show computeUsage 100 0 50 0 ≠ 0
    norm_num [computeUsage, sub64, U64]

/-- C1 (amended): the computed utilization is always nonnegative; it is `0`
when the two total-tick counts are equal; and it lies in `[0, 100]` whenever
the totals and idles are non-decreasing and the idle delta does not exceed
the total delta.  (With the source's `uint64_t` wraparound subtraction, a
sample violating those monotonicity conditions can escape `[0, 100]`, as
`computeUsage_escapes_range` shows.) -/
theorem computeUsage_amended (tp ip tc ic : ℕ)
    (htc : tc < U64) (hic : ic < U64) :
    0 ≤ computeUsage tp ip tc ic
    ∧ (tc = tp → computeUsage tp ip tc ic = 0)
    ∧ (tp ≤ tc → ip ≤ ic → ic - ip ≤ tc - tp → computeUsage tp ip tc ic ≤ 100) := by
  refine ⟨?_, ?_, ?_⟩
  · simp only [computeUsage]
    split
    · positivity
    · exact le_refl 0
  · intro h
    subst h
    simp [computeUsage, sub64_self]
  · intro h1 h2 h3
    rcases eq_or_lt_of_le h1 with heq | hlt
    · subst heq
      simp [computeUsage, sub64_self]
    · have htot : sub64 tc tp = tc - tp := sub64_of_le h1 htc
      have hidl : sub64 ic ip = ic - ip := sub64_of_le h2 hic
      simp only [computeUsage, htot, hidl]
      have htpos : 0 < tc - tp := by omega
      rw [if_pos htpos]
      have hsub : sub64 (tc - tp) (ic - ip) = (tc - tp) - (ic - ip) :=
        sub64_of_le h3 (by omega)
      rw [hsub]
      rw [mul_div_assoc]
      have hd : ((tc - tp - (ic - ip) : ℕ) : ℚ) / ((tc - tp : ℕ) : ℚ) ≤ 1 := by
        apply div_le_one_of_le₀
        · exact_mod_cast Nat.sub_le _ _
        · positivity
      calc 100 * (((tc - tp - (ic - ip) : ℕ) : ℚ) / ((tc - tp : ℕ) : ℚ))
          ≤ 100 * 1 := by exact mul_le_mul_of_nonneg_left hd (by norm_num)
        _ = 100 := by norm_num

/-- Witness for `computeUsage_amended` at the concrete sample
`(10, 2) → (110, 52)`: fifty busy ticks out of one hundred. -/
theorem computeUsage_amended_witness :
    0 ≤ computeUsage 10 2 110 52
    ∧ ((110 : ℕ) = 10 → computeUsage 10 2 110 52 = 0)
    ∧ ((10 : ℕ) ≤ 110 → (2 : ℕ) ≤ 52 → (52 : ℕ) - 2 ≤ 110 - 10 →
        computeUsage 10 2 110 52 ≤ 100) :=
  computeUsage_amended 10 2 110 52 (by norm_num [U64]) (by norm_num [U64])

/-- C7: the per-interval operations delta computed by the orchestrator
equals the difference of the two counter reads modulo `2^64`; in particular
wraparound (current read numerically smaller than the previous one) yields
the correct positive delta through the `UINT64_MAX - prev + ops + 1`
branch, with no error path. -/
theorem opsDelta_mod (ops prev : ℕ) (_ho : ops < U64) (hp : prev < U64) :
    (opsDelta ops prev : ℤ) = ((ops : ℤ) - (prev : ℤ)) % ((U64 : ℕ) : ℤ) := by
  simp only [opsDelta, U64] at *
  split <;> omega

/-- Witness for `opsDelta_mod` across a simulated wraparound: previous read
`2^64 − 3`, current read `5`, delta `8`. -/
theorem opsDelta_mod_witness :
    (5 : ℕ) < U64 ∧ (2 ^ 64 - 3 : ℕ) < U64
    ∧ (opsDelta 5 (2 ^ 64 - 3) : ℤ) = ((5 : ℤ) - ((2 ^ 64 - 3 : ℕ) : ℤ)) % ((U64 : ℕ) : ℤ) :=
  ⟨by norm_num [U64], by norm_num [U64],
    opsDelta_mod 5 (2 ^ 64 - 3) (by norm_num [U64]) (by norm_num [U64])⟩

/-- The auto-scaling applied by `read_temperature` to the raw sensor value:
divide by 1000 exactly when the raw value is strictly greater than 1000. -/
def scaledTemp (v : ℤ) : ℚ :=
  if v > 1000 then (v : ℚ) / 1000 else (v : ℚ)

/-- C8: `read_temperature` returns nothing when the path is absent or
unreadable; on a raw value it returns nothing exactly when the auto-scaled
reading falls outside the plausible range `[-20, 150]` °C, and otherwise
returns the scaled Celsius value. -/
theorem readTemperature_spec (v : ℤ) :
    readTemperature none = none
    ∧ (readTemperature (some v) = none ↔ scaledTemp v < -20 ∨ 150 < scaledTemp v)
    ∧ ((-20 ≤ scaledTemp v ∧ scaledTemp v ≤ 150) ↔ readTemperature (some v) = some (scaledTemp v)) := by
  have hunf : readTemperature (some v) =
      if scaledTemp v < -20 ∨ scaledTemp v > 150 then none else some (scaledTemp v) := rfl
  refine ⟨rfl, ?_, ?_⟩
  · rw [hunf]
    by_cases h : scaledTemp v < -20 ∨ scaledTemp v > 150
    · rw [if_pos h]
      exact ⟨fun _ => h, fun _ => rfl⟩
    · rw [if_neg h]
      exact ⟨fun hh => Option.noConfusion hh, fun hh => absurd hh h⟩
  · rw [hunf]
    by_cases h : scaledTemp v < -20 ∨ scaledTemp v > 150
    · rw [if_pos h]
      constructor
      · rintro ⟨h1, h2⟩
        rcases h with h' | h'
        · exact absurd h1 (not_le.2 h')
        · exact absurd h2 (not_le.2 h')
      · intro hh
        exact Option.noConfusion hh
    · rw [if_neg h]
      rcases not_or.1 h with ⟨h1, h2⟩
      exact ⟨fun _ => rfl, fun _ => ⟨not_lt.1 h1, not_lt.1 h2⟩⟩

/-- C2: the DCL validation operation computes
`deviation_pct = |measured − expected| / expected · 100` and yields `Pass`
exactly when the deviation is within tolerance; on the two documented
examples, `(expected 2800, measured 2785, tolerance 3.0)` deviates by about
0.54 % and passes, while `(expected 2800, measured 831, tolerance 10.0)`
deviates by about 70.3 % and fails. -/
theorem validate_dcl_spec :
    (∀ (spec : DCLSpecEntry) (m : ℚ),
      (validate spec m).deviationPct = |m - spec.expected| / spec.expected * 100
      ∧ ((validate spec m).verdict = Verdict.pass
          ↔ (validate spec m).deviationPct ≤ spec.tolerancePct))
    ∧ ((validate ⟨2800, 3⟩ 2785).verdict = Verdict.pass
        ∧ |(validate ⟨2800, 3⟩ 2785).deviationPct - 54 / 100| ≤ 1 / 100)
    ∧ ((validate ⟨2800, 10⟩ 831).verdict = Verdict.fail
        ∧ |(validate ⟨2800, 10⟩ 831).deviationPct - 703 / 10| ≤ 1 / 10) := by
  have d1 : (validate ⟨2800, 3⟩ 2785).deviationPct = 15 / 28 := by
    show |(2785 : ℚ) - 2800| / 2800 * 100 = 15 / 28
    rw [show (2785 - 2800 : ℚ) = -15 by norm_num, abs_neg,
      abs_of_nonneg (by norm_num : (0 : ℚ) ≤ 15)]
    norm_num
  have d2 : (validate ⟨2800, 10⟩ 831).deviationPct = 1969 / 28 := by
    show |(831 : ℚ) - 2800| / 2800 * 100 = 1969 / 28
    rw [show (831 - 2800 : ℚ) = -1969 by norm_num, abs_neg,
      abs_of_nonneg (by norm_num : (0 : ℚ) ≤ 1969)]
    norm_num
  have hv : ∀ (spec : DCLSpecEntry) (m : ℚ),
      (validate spec m).verdict = Verdict.pass
        ↔ (validate spec m).deviationPct ≤ spec.tolerancePct := by
    intro spec m
    show (if (validate spec m).deviationPct ≤ spec.tolerancePct
          then Verdict.pass else Verdict.fail) = Verdict.pass ↔ _
    split
    · exact iff_of_true rfl (by assumption)
    · exact iff_of_false (fun hc => Verdict.noConfusion hc) (by assumption)
  refine ⟨fun spec m => ⟨rfl, hv spec m⟩, ⟨?_, ?_⟩, ⟨?_, ?_⟩⟩
  · rw [hv, d1]
    norm_num
  · rw [d1]
    rw [show (15 / 28 - 54 / 100 : ℚ) = -3 / 700 by norm_num, abs_div, abs_neg,
      abs_of_nonneg (by norm_num : (0 : ℚ) ≤ 3),
      abs_of_nonneg (by norm_num : (0 : ℚ) ≤ 700)]
    norm_num
  · have := hv ⟨2800, 10⟩ 831
    rcases hfail : (validate ⟨2800, 10⟩ 831).verdict with _ | _
    · rw [hfail, d2] at this
      exact absurd (this.1 rfl) (by norm_num)
    · rfl
  · rw [d2]
    rw [show (1969 / 28 - 703 / 10 : ℚ) = 3 / 140 by norm_num, abs_div,
      abs_of_nonneg (by norm_num : (0 : ℚ) ≤ 3),
      abs_of_nonneg (by norm_num : (0 : ℚ) ≤ 140)]
    norm_num

/-- Index-wise description of the reassignment pass, by induction on the
worker list with a generalized start index. -/
lemma reassignFrom_getD (m : ℤ) (ids : List ℤ) (i0 j : ℕ) (hj : j < ids.length) :
    (reassignFrom m i0 ids).getD j 0 =
      if ids.getD j 0 ≥ m then ((i0 + j : ℕ) : ℤ) % m else ids.getD j 0 := by
  induction ids generalizing i0 j with
  | nil => simp at hj
  | cons x rest ih =>
    cases j with
    | zero => simp [reassignFrom]
    | succ k =>
      have hk : k < rest.length := by simpa using hj
      have := ih (i0 + 1) k hk
      simpa [reassignFrom, Nat.add_assoc, Nat.add_comm 1 k] using this

/-- The pass preserves the number of workers (any start index). -/
lemma length_reassignFrom (m : ℤ) (ids : List ℤ) (i0 : ℕ) :
    (reassignFrom m i0 ids).length = ids.length := by
  induction ids generalizing i0 with
  | nil => rfl
  | cons x rest ih => simp [reassignFrom, ih]

/-- C6: after the Affinity Monitor's reassignment pass with new available
count `m > 0`, the worker list keeps its length; a worker whose id was
already below `m` is untouched, a worker whose id was out of range is moved
to `i % m`, and every resulting id is below `m`. -/
theorem reassignWorkers_spec (m : ℤ) (ids : List ℤ) (hm : 0 < m) :
    (reassignWorkers m ids).length = ids.length
    ∧ ∀ i, i < ids.length →
        (ids.getD i 0 < m → (reassignWorkers m ids).getD i 0 = ids.getD i 0)
        ∧ (m ≤ ids.getD i 0 → (reassignWorkers m ids).getD i 0 = (i : ℤ) % m)
        ∧ (reassignWorkers m ids).getD i 0 < m := by
  refine ⟨length_reassignFrom m ids 0, fun i hi => ?_⟩
  have hg := reassignFrom_getD m ids 0 i hi
  simp only [Nat.zero_add] at hg
  refine ⟨?_, ?_, ?_⟩
  · intro hlt
    rw [reassignWorkers, hg, if_neg (not_le.2 hlt)]
  · intro hge
    rw [reassignWorkers, hg, if_pos hge]
  · rw [reassignWorkers, hg]
    split
    · exact Int.emod_lt_of_pos _ hm
    · exact lt_of_not_le (by assumption)

/-- Witness for `reassignWorkers_spec` with the count shrunk to 2 and
worker ids `[0, 5, 1]`: worker 1's out-of-range id 5 becomes `1 % 2 = 1`,
workers 0 and 2 keep theirs, and all ids end below 2. -/
theorem reassignWorkers_spec_witness :
    (reassignWorkers 2 [0, 5, 1]).length = ([0, 5, 1] : List ℤ).length
    ∧ (((2 : ℤ) ≤ ([0, 5, 1] : List ℤ).getD 1 0 →
        (reassignWorkers 2 [0, 5, 1]).getD 1 0 = (1 : ℤ) % 2)
      ∧ (reassignWorkers 2 [0, 5, 1]).getD 1 0 < 2) :=
  ⟨(reassignWorkers_spec 2 [0, 5, 1] (by norm_num)).1,
   ((reassignWorkers_spec 2 [0, 5, 1] (by norm_num)).2 1 (by norm_num)).2.1,
   ((reassignWorkers_spec 2 [0, 5, 1] (by norm_num)).2 1 (by norm_num)).2.2⟩

/-- A `--freq-table` string of 257 well-formed `cpu:freq` pairs — one more
than the 256-entry buffers can hold. -/
def overflowInput : List Char :=
  List.intercalate [','] (List.replicate 257 ['0', ':', '1'])

set_option maxRecDepth 100000 in
/-- C9 (code bug): on `overflowInput`, `parse_freq_table` performs 257
stores, so the store with index 256 falls outside the `maxpairs = 256`
entry `cpus`/`freq` buffers — the loop in this version lacks the
`cnt < maxpairs` guard. -/
theorem parseFreqTable_overflows :
    (parseFreqTableWrites overflowInput).length = 257
    ∧ MAXPAIRS < (parseFreqTableWrites overflowInput).length := by
  constructor
  · decide
  · show 256 < _
    rw [show (parseFreqTableWrites overflowInput).length = 257 from by decide]
    norm_num

/-- C10: any `--type` string outside the eight recognized keywords
(case-insensitively) parses to the AUTO kind rather than an error, and AUTO
resolves by SIMD auto-detection to the first supported tier in the order
AVX-512, AVX2, AVX, SSE, falling back to INT. -/
theorem parseType_unrecognized_auto (s : List Char)
    (h : ∀ k ∈ TYPE_KEYWORDS, strCaseEqual s k = false) :
    parseType (some s) = wAuto
    ∧ ∀ c : Caps,
        autoDetectBestSimd c = ((simdPreference c).find? (fun p => p.1)).elim wInt (fun p => p.2) := by
  constructor
  · have h1 := h _ (show ['I', 'N', 'T'] ∈ TYPE_KEYWORDS by simp [TYPE_KEYWORDS])
    have h2 := h _ (show ['F', 'L', 'O', 'A', 'T'] ∈ TYPE_KEYWORDS by simp [TYPE_KEYWORDS])
    have h3 := h _ (show ['S', 'S', 'E'] ∈ TYPE_KEYWORDS by simp [TYPE_KEYWORDS])
    have h4 := h _ (show ['A', 'V', 'X'] ∈ TYPE_KEYWORDS by simp [TYPE_KEYWORDS])
    have h5 := h _ (show ['A', 'V', 'X', '2'] ∈ TYPE_KEYWORDS by simp [TYPE_KEYWORDS])
    have h6 := h _ (show ['A', 'V', 'X', '5', '1', '2'] ∈ TYPE_KEYWORDS by simp [TYPE_KEYWORDS])
    have h7 := h _ (show ['M', 'I', 'X', 'E', 'D'] ∈ TYPE_KEYWORDS by simp [TYPE_KEYWORDS])
    have h8 := h _ (show ['A', 'U', 'T', 'O'] ∈ TYPE_KEYWORDS by simp [TYPE_KEYWORDS])
    simp only [parseType, h1, h2, h3, h4, h5, h6, h7, h8, Bool.false_eq_true, if_false]
  · intro c
    rcases c with ⟨cs, ca, ca2, ca512⟩
    cases cs <;> cases ca <;> cases ca2 <;> cases ca512 <;> rfl

/-- Witness for `parseType_unrecognized_auto` on the unrecognized string
`"TURBO"` and a SSE-plus-AVX capability set. -/
theorem parseType_unrecognized_auto_witness :
    parseType (some ['T', 'U', 'R', 'B', 'O']) = wAuto
    ∧ autoDetectBestSimd ⟨true, true, false, false⟩ =
        ((simdPreference ⟨true, true, false, false⟩).find? (fun p => p.1)).elim wInt (fun p => p.2) :=
  ⟨(parseType_unrecognized_auto ['T', 'U', 'R', 'B', 'O'] (by decide)).1,
   (parseType_unrecognized_auto ['T', 'U', 'R', 'B', 'O'] (by decide)).2 ⟨true, true, false, false⟩⟩

/-- The tuner's step-down with floor clamp equals the spec-side
`max(floor_khz, cur * (100 - step_pct) / 100)`. -/
lemma dynNewMax_eq_max (cur : ℤ) :
    dynNewMax cur = max FREQ_FLOOR (Int.tdiv (cur * (100 - DYN_FREQ_STEP_PCT)) 100) := by
  unfold dynNewMax
  dsimp only
  split
  · rename_i h
    exact (max_eq_left h.le).symm
  · rename_i h
    exact (max_eq_right (not_lt.1 h)).symm

/-- Every value the tuner computes is at least the floor. -/
lemma dynNewMax_ge_floor (cur : ℤ) : FREQ_FLOOR ≤ dynNewMax cur := by
  unfold dynNewMax
  dsimp only
  split
  · exact le_refl _
  · exact not_lt.1 (by assumption)

/-- No ramp-up: applied to a value at or above the floor — in particular to
any previously committed maximum — the step never increases it. -/
lemma dynNewMax_le_self (cur : ℤ) (h : FREQ_FLOOR ≤ cur) : dynNewMax cur ≤ cur := by
  have hcur : (0 : ℤ) ≤ cur := le_trans (by norm_num [FREQ_FLOOR]) h
  have hstep : Int.tdiv (cur * (100 - DYN_FREQ_STEP_PCT)) 100 ≤ cur := by
    rw [show (100 - DYN_FREQ_STEP_PCT : ℤ) = 90 from by norm_num [DYN_FREQ_STEP_PCT]]
    rw [Int.tdiv_eq_ediv (by positivity) (by norm_num)]
    calc cur * 90 / 100 ≤ cur * 100 / 100 :=
          Int.ediv_le_ediv (by norm_num) (by nlinarith)
      _ = cur := Int.mul_ediv_cancel cur (by norm_num)
  unfold dynNewMax
  dsimp only
  split
  · exact h
  · exact hstep

/-- C5: the dynamic frequency tuner takes no action when the temperature
reading is absent or below the threshold; when it is present and at or above
the threshold it issues, for every core, a write of
`max(floor, current_or_last_known_max · (100 − step)/100)` with step 10 % and
floor 100000 kHz, records the committed value only for cores whose write
succeeded, and — since every committed value is at least the floor and the
step applied at or above the floor never increases the value — never ramps a
committed maximum up. -/
theorem dynTuner_spec (t thresh : ℚ) (cores : List (ℤ × Option ℤ × Bool)) :
    (dynTunerStep none thresh cores = (cores.map (·.1), []))
    ∧ (t < thresh → dynTunerStep (some t) thresh cores = (cores.map (·.1), []))
    ∧ (thresh ≤ t →
        (dynTunerStep (some t) thresh cores).2 =
          cores.map (fun c =>
            max FREQ_FLOOR (Int.tdiv (resolveCur c.1 c.2.1 * (100 - DYN_FREQ_STEP_PCT)) 100))
        ∧ (dynTunerStep (some t) thresh cores).1 =
          cores.map (fun c => if c.2.2 then dynNewMax (resolveCur c.1 c.2.1) else c.1))
    ∧ (∀ cur : ℤ, FREQ_FLOOR ≤ dynNewMax cur ∧ (FREQ_FLOOR ≤ cur → dynNewMax cur ≤ cur)) := by
  refine ⟨rfl, ?_, ?_, fun cur => ⟨dynNewMax_ge_floor cur, dynNewMax_le_self cur⟩⟩
  all_goals
    have hred : dynTunerStep (some t) thresh cores =
        if t ≥ thresh then
          ((cores.map fun c => (dynCoreStep c.1 c.2.1 c.2.2).stored'),
           cores.map fun c => (dynCoreStep c.1 c.2.1 c.2.2).issued)
        else (cores.map (·.1), []) := rfl
  · intro hlt
    rw [hred, if_neg (not_le.2 hlt)]
  · intro hge
    rw [hred, if_pos hge]
    constructor
    · exact List.map_congr_left fun c _ => (dynNewMax_eq_max (resolveCur c.1 c.2.1))
    · apply List.map_congr_left
      intro c _
      unfold dynCoreStep
      dsimp only

/-- Witness for `dynTuner_spec` on one core with recorded maximum
500000 kHz: below the 90-degree threshold nothing happens, at 95 degrees a
write of 450000 kHz is issued and recorded. -/
theorem dynTuner_spec_witness :
    dynTunerStep (some 80) 90 [((500000 : ℤ), none, true)] = ([500000], [])
    ∧ (dynTunerStep (some 95) 90 [((500000 : ℤ), none, true)]).2 =
        [max FREQ_FLOOR (Int.tdiv ((500000 : ℤ) * (100 - DYN_FREQ_STEP_PCT)) 100)]
    ∧ dynNewMax 500000 ≤ 500000 :=
  ⟨(dynTuner_spec 80 90 [((500000 : ℤ), none, true)]).2.1 (by norm_num),
   by
    have h := ((dynTuner_spec 95 90 [((500000 : ℤ), none, true)]).2.2.1 (by norm_num)).1
    simpa [resolveCur] using h,
   ((dynTuner_spec 95 90 []).2.2.2 500000).2 (by norm_num [FREQ_FLOOR])⟩

/-- The successful `modeThreads` value is the mode-derived count. -/
lemma modeThreads_ok_eq (env : Env) (cfg : EnvConfig) (n0 : ℤ)
    (h : modeThreads env cfg = .ok n0) : n0 = derivedThreads env cfg := by
  rcases hmode : cfg.mode with _ | _ | _ <;>
    simp only [modeThreads, derivedThreads, hmode] at h ⊢
  · exact (Except.ok.inj h).symm
  · split_ifs at h
    exact (Except.ok.inj h).symm
  · exact (Except.ok.inj h).symm

/-- The two clamp steps compute the minimum of the derived count, the
`--max-threads` value and 256. -/
lemma clampThreads_eq_min (n0 maxT : ℤ) : clampThreads n0 maxT = min (min n0 maxT) 256 := by
  unfold clampThreads
  dsimp only
  split_ifs <;> omega

/-- C3 counterexample: at a fully capable environment, a MIXED run with no
`--mixed-ratio` argument does not proceed — `validate_environment` fails
with the missing-ratio error instead of defaulting to equal weighting. -/
theorem mixed_without_ratio_fails :
    validateEnvironment ⟨true, 4, ⟨true, true, true, true⟩, true⟩
      ⟨MMode.multi, wMixed, 256, false, none, 0, 2⟩ = .error .mixedNoRatio := by
  rfl

/-- C3 (amended): a MIXED run with no caller-supplied mix ratio never passes
pre-run validation (`"Error: MIXED mode requires --mixed-ratio A:B:C"`); the
equal-weighting behaviour — executing the integer, float and vector units
together each iteration — is only the worker's fallback for a non-positive
global ratio total, which successful validation never produces. -/
theorem mixed_without_ratio_amended (env : Env) (cfg : EnvConfig)
    (hm : cfg.wtype = wMixed) (hr : cfg.mixedRatioScan = none)
    (mr : MixedRatio) (hmr : ¬mr.total > 0) (rnd : ℕ) :
    (∀ r, validateEnvironment env cfg ≠ .ok r)
    ∧ mixedPick mr rnd = [WUnit.intU, WUnit.floatU, WUnit.vecU] := by
  constructor
  · intro r h
    unfold validateEnvironment at h
    rw [hm, hr] at h
    split at h
    · exact Except.noConfusion h
    · split at h
      · exact Except.noConfusion h
      · simp only [reduceCtorEq, false_and, if_false, ite_self, if_true] at h
        split at h
        · exact Except.noConfusion h
        · split at h
          · exact Except.noConfusion h
          · exact Except.noConfusion h
  · unfold mixedPick
    rw [if_neg hmr]

/-- Witness for `mixed_without_ratio_amended` at a concrete capable
environment and the zero ratio with draw 7. -/
theorem mixed_without_ratio_amended_witness :
    (validateEnvironment ⟨true, 4, ⟨true, true, true, true⟩, true⟩
        ⟨MMode.multi, wMixed, 256, false, none, 0, 2⟩ ≠ .ok ⟨4, none⟩)
    ∧ mixedPick ⟨0, 0, 0, 0⟩ 7 = [WUnit.intU, WUnit.floatU, WUnit.vecU] :=
  ⟨(mixed_without_ratio_amended ⟨true, 4, ⟨true, true, true, true⟩, true⟩
      ⟨MMode.multi, wMixed, 256, false, none, 0, 2⟩ rfl rfl ⟨0, 0, 0, 0⟩ (by decide) 7).1 ⟨4, none⟩,
   (mixed_without_ratio_amended ⟨true, 4, ⟨true, true, true, true⟩, true⟩
      ⟨MMode.multi, wMixed, 256, false, none, 0, 2⟩ rfl rfl ⟨0, 0, 0, 0⟩ (by decide) 7).2⟩

/-- C4 counterexample: with 8 affinity CPUs and `--max-threads 4`, the
mode-derived count 8 exceeds the ceiling, yet environment validation
succeeds — with the count clamped to 4 — instead of failing. -/
theorem overceiling_not_fatal :
    validateEnvironment ⟨true, 8, ⟨true, true, true, true⟩, true⟩
      ⟨MMode.multi, wInt, 4, false, none, 0, 2⟩ = .ok ⟨4, none⟩ := by
  rfl

/-- C4 (amended): a mode-derived worker count exceeding `--max-threads` is
clamped, not rejected (source comment "NEW BEHAVIOR: Clamp instead of
error"): whenever validation succeeds for a non-AUTO kind, the committed
thread count is `min(min(derived, max_threads), 256)`. -/
theorem threads_clamped (env : Env) (cfg : EnvConfig) (r : VOk)
    (hok : validateEnvironment env cfg = .ok r) (hauto : cfg.wtype ≠ wAuto) :
    r.nthreads = min (min (derivedThreads env cfg) cfg.maxThreads) 256 := by
  unfold validateEnvironment at hok
  split at hok
  · exact Except.noConfusion hok
  split at hok
  · exact Except.noConfusion hok
  rename_i n0 heq
  rw [← modeThreads_ok_eq env cfg n0 heq, ← clampThreads_eq_min]
  dsimp only at hok
  split at hok
  · exact Except.noConfusion hok
  split at hok
  · exact Except.noConfusion hok
  split at hok
  · exact Except.noConfusion hok
  split at hok
  · exact Except.noConfusion hok
  split at hok
  · exact Except.noConfusion hok
  split at hok
  · exact Except.noConfusion hok
  split at hok
  · split at hok
    · exact Except.noConfusion hok
    · split at hok
      · exact Except.noConfusion hok
      · rw [← Except.ok.inj hok]
  · rw [← Except.ok.inj hok]

/-- Witness for `threads_clamped`: 8 affinity CPUs and `--max-threads 4`
commit 4 worker threads. -/
theorem threads_clamped_witness :
    (VOk.mk 4 none).nthreads =
      min (min (derivedThreads ⟨true, 8, ⟨true, true, true, true⟩, true⟩
        ⟨MMode.multi, wInt, 4, false, none, 0, 2⟩) 4) 256 :=
  threads_clamped ⟨true, 8, ⟨true, true, true, true⟩, true⟩
    ⟨MMode.multi, wInt, 4, false, none, 0, 2⟩ ⟨4, none⟩ rfl (by decide)

end CoreBurner
